import Mathlib

/-!
Shallow embedding of the core of the ST-API-Retry-Plugin repository: the
URL rule matcher, the response-content classifier, and the bounded retry
loop of enhancedFetch, translated from src/unnamed/part_001 (the current
revision; src/index.js and src/unnamed/part_000 are earlier revisions of
the same file and are noted where they differ).

Host primitives the plugin invokes but does not define (the JS RegExp
engine, JSON.parse, the injected tokenizer, and the caller's abort signal)
are modelled as explicit parameters: the RegExp engine as an abstract
compile/test pair in which a failing compilation is none, JSON.parse as a
function returning an optional JSON value, the tokenizer as a partial
counting function, and the abort signal as a record of its value at each
program point where the loop consults it.
-/

namespace RetryPlugin

/-- Decimal numeral of a natural number, modelling JS template interpolation
of a number into a string. -/
def natStr (n : Nat) : String := String.mk (Nat.toDigits 10 n)

/-- Lower-case every character, modelling String.prototype.toLowerCase. -/
def lowerChars (l : List Char) : List Char := l.map Char.toLower

/-- Model of String.prototype.trim: drop leading and trailing whitespace. -/
def trimChars (l : List Char) : List Char :=
  ((l.dropWhile Char.isWhitespace).reverse.dropWhile Char.isWhitespace).reverse

/-- Case-insensitive substring containment, the substring branch of
matchesRule: String(url).toLowerCase().includes(String(rule).toLowerCase()). -/
def containsCI (url rule : String) : Bool :=
  decide (lowerChars rule.data <:+: lowerChars url.data)

/-- The plugin settings consumed by the core, the fields of DEFAULT_SETTINGS
in part_001 that the intercept/classify/retry path reads. -/
structure Settings where
  enabled : Bool
  maxRetries : Nat
  baseDelay : Nat
  minContentLength : Nat
  checkWhitespace : Bool
  interceptRules : List String
  enableMinTokenRetry : Bool
  minTokenThreshold : Nat
deriving DecidableEq

/-- isEmptyContent: a body is empty when it is the empty string (falsy), when
its trimmed length is below minContentLength, or when checkWhitespace is on
and stripping every whitespace character leaves nothing. -/
def isEmptyContent (s : Settings) (text : String) : Bool :=
  if text = "" then true
  else
    let content := trimChars text.data
    if content.length < s.minContentLength then true
    else if s.checkWhitespace && (content.filter (fun c => !c.isWhitespace)).isEmpty then true
    else false

/-- JSON values as produced by the host JSON.parse. -/
inductive JsonVal where
  | null
  | bool (b : Bool)
  | num (n : Int)
  | str (s : String)
  | arr (elems : List JsonVal)
  | obj (fields : List (String × JsonVal))

/-- Optional-chaining property access obj?.[key]: a value only on objects. -/
def JsonVal.get? : JsonVal → String → Option JsonVal
  | .obj fs, key => (fs.find? (fun p => p.fst == key)).map (fun p => p.snd)
  | _, _ => none

/-- The typeof x === a string test used before pushing a part. -/
def JsonVal.asString? : JsonVal → Option String
  | .str s => some s
  | _ => none

/-- The parts contributed by one string-valued field, empty when the field is
absent or not a string. -/
def strField (v : JsonVal) (key : String) : List String :=
  ((v.get? key).bind JsonVal.asString?).toList

/-- The parts contributed by a two-step path such as ch?.message?.content. -/
def strPath (v : JsonVal) (k1 k2 : String) : List String :=
  (((v.get? k1).bind (fun w => w.get? k2)).bind JsonVal.asString?).toList

/-- Parts pushed for one element of an OpenAI-style choices array. -/
def choiceParts (ch : JsonVal) : List String :=
  strPath ch "message" "content" ++ strPath ch "delta" "content" ++ strField ch "text"

/-- Parts pushed for one element of a results array. -/
def resultParts (r : JsonVal) : List String :=
  strField r "text" ++ strField r "content" ++ strField r "output_text"

/-- The fixed fallback keys probed on the top-level object, in source order. -/
def fallbackKeys : List String :=
  ["message", "content", "response", "output_text", "generated_text"]

/-- extractResponseContent: parse the raw body as JSON (a parse failure is
caught and yields null), collect candidate text fragments from the common
response shapes in source order, keep the truthy ones, join with newlines,
and return null when nothing remains. -/
def extractResponseContent (parse : String → Option JsonVal) (rawText : String) : Option String :=
  match parse rawText with
  | none => none
  | some obj =>
    let parts : List String :=
      (match obj.get? "choices" with
       | some (.arr chs) => chs.flatMap choiceParts
       | _ => [])
      ++ (match obj.get? "results" with
          | some (.arr rs) => rs.flatMap resultParts
          | _ => [])
      ++ fallbackKeys.flatMap (fun k => strField obj k)
      ++ (match obj.get? "data" with
          | some (.arr (d0 :: _)) => strField d0 "text"
          | _ => [])
    let joined := String.intercalate "\n" (parts.filter (fun p => !(p == "")))
    if joined = "" then none else some joined

/-- getTokenCountFor: the injected tokenizer when available and not throwing
(modelled by some), otherwise the character-ratio estimate
ceil(length / 3.35), with 3.35 = 67 / 20 taken as an exact rational. -/
def getTokenCountFor (tok : String → Option Nat) (text : String) : Nat :=
  match tok text with
  | some n => n
  | none => (20 * text.data.length + 66) / 67

/-- The body-classification step of enhancedFetch: the primary
isEmptyContent test, then, when the body passed it and enableMinTokenRetry
is set, the token estimate of the extracted candidate (the raw body when
extraction yields nothing) compared against minTokenThreshold. -/
def classifyEmpty (s : Settings) (parse : String → Option JsonVal)
    (tok : String → Option Nat) (text : String) : Bool :=
  let treatAsEmpty := isEmptyContent s text
  if !treatAsEmpty && s.enableMinTokenRetry then
    let candidate := (extractResponseContent parse text).getD text
    let tokens := getTokenCountFor tok candidate
    if tokens < s.minTokenThreshold then true else treatAsEmpty
  else treatAsEmpty

/-- The host RegExp engine, abstract over its compiled-regex type: compile
returns none exactly when new RegExp(pattern) throws, and test models
RegExp.prototype.test. -/
structure RegexEngine (ρ : Type) where
  compile : String → Option ρ
  test : ρ → String → Bool

/-- A rule is in regex form when it has length at least two and both starts
and ends with a slash. -/
def isRegexForm (rule : String) : Bool :=
  decide (2 ≤ rule.data.length)
    && (rule.data.head? == some '/') && (rule.data.getLast? == some '/')

/-- rule.slice(1, -1): the pattern text between the two slashes. -/
def innerPattern (rule : String) : String :=
  String.mk ((rule.data.drop 1).dropLast)

/-- matchesRule: a falsy rule never matches, a regex-form rule is compiled
and tested (an invalid pattern is caught and treated as non-matching), and
any other rule is a case-insensitive substring test. -/
def matchesRule {ρ : Type} (eng : RegexEngine ρ) (url rule : String) : Bool :=
  if rule = "" then false
  else if isRegexForm rule then
    match eng.compile (innerPattern rule) with
    | some re => eng.test re url
    | none => false
  else containsCI url rule

/-- shouldIntercept: an empty rule list intercepts nothing, otherwise the
URL is intercepted when some rule matches it. -/
def shouldIntercept {ρ : Type} (eng : RegexEngine ρ) (s : Settings) (url : String) : Bool :=
  if s.interceptRules.isEmpty then false
  else s.interceptRules.any (fun rule => matchesRule eng url rule)

/-- Model of a JS Error value as created and thrown by the plugin: the error
name, the message, and the expando fields the code attaches to HTTP errors. -/
structure JsError where
  name : String
  message : String
  status? : Option Nat
  statusText? : Option String
  body? : Option String
deriving DecidableEq

/-- DOMException with message Aborted and name AbortError. -/
def abortErr : JsError := ⟨"AbortError", "Aborted", none, none, none⟩

/-- The detailed HTTP error built inside the non-ok try: message with the
status line and the error body (trimmed), plus status, statusText and body
attached as fields. -/
def detailedHttpError (status : Nat) (statusText body : String) : JsError :=
  ⟨"Error",
   String.mk (trimChars ("HTTP " ++ natStr status ++ ": " ++ statusText ++ "\n" ++ body).data),
   some status, some statusText, some body⟩

/-- The generic status-only error thrown by the catch of the non-ok branch. -/
def genericHttpError (status : Nat) (statusText : String) : JsError :=
  ⟨"Error", "HTTP " ++ natStr status ++ ": " ++ statusText, none, none, none⟩

/-- Stand-in for the exception raised when reading the cloned error body
itself fails. -/
def cloneReadError : JsError := ⟨"TypeError", "body stream already read", none, none, none⟩

/-- The exhausted-retries error of the empty-content path, carrying the
total attempt count in its message. -/
def emptyErr (attempts : Nat) : JsError :=
  ⟨"Error", "检测到空内容，已连续 " ++ natStr attempts ++ " 次尝试无有效响应。", none, none, none⟩

/-- The fallback error thrown after the loop when no error was recorded. -/
def fallbackExhaustedErr : JsError := ⟨"Error", "重试次数已达上限", none, none, none⟩

/-- Whether a keyword occurs inside a character list, modelling
String.prototype.includes on an already lower-cased message. -/
def containsKeyword (kw : String) (msg : List Char) : Bool :=
  decide (kw.data <:+: msg)

/-- isAbortError: the name is AbortError, or the lower-cased message contains
one of the abort / cancel keywords. -/
def isAbortError (e : JsError) : Bool :=
  e.name == "AbortError"
    || (let m := lowerChars e.message.data
        containsKeyword "aborted" m || containsKeyword "abort" m
          || containsKeyword "canceled" m || containsKeyword "cancelled" m)

/-- The body of the try in the non-ok branch: read the cloned error body
(the read may itself throw, modelled by a none bodyRead) and throw the
detailed HTTP error. Every path through this try throws. -/
def nonOkTryBody (status : Nat) (statusText : String) (bodyRead : Option String) :
    Except JsError Unit :=
  match bodyRead with
  | none => Except.error cloneReadError
  | some bodyText => Except.error (detailedHttpError status statusText bodyText)

/-- The error that actually escapes the non-ok branch: the throw of the
detailed error happens inside the try, so the catch on the same statement
replaces whatever the try threw with the generic status-only error. -/
def nonOkThrown (status : Nat) (statusText : String) (bodyRead : Option String) : JsError :=
  match nonOkTryBody status statusText bodyRead with
  | Except.error _ => genericHttpError status statusText
  | Except.ok _ => genericHttpError status statusText

/-- calculateDelay of part_001: the fixed inter-attempt delay
Number(settings.baseDelay) || 0, independent of the attempt index. -/
def calculateDelay (s : Settings) (_attempt : Nat) : Nat := s.baseDelay

/-- calculateDelay of the earlier revisions (src/index.js and part_000):
exponential backoff baseDelay * 2 ^ attempt, superseded by the fixed policy
of part_001. Kept for reference, unused by the current loop. -/
def calculateDelayLegacy (s : Settings) (attempt : Nat) : Nat := s.baseDelay * 2 ^ attempt

/-- The outcome of one invocation of the underlying originalFetch: a
successful-status response together with the result of reading its cloned
body (none when the read fails), a non-success-status response, or a thrown
exception. -/
inductive FetchOutcome where
  | ok (body : Option String)
  | notOk (status : Nat) (statusText : String) (bodyRead : Option String)
  | throws (e : JsError)
deriving DecidableEq

/-- The external world of one enhancedFetch call: the outcome the underlying
transport produces on each attempt index, and the value of the caller's
abort signal at each program point where the loop consults it (loop entry,
the exhausted-retries popup guard, the catch block, during the
inter-attempt wait, and the post-loop popup guard). -/
structure Env where
  outcomes : Nat → FetchOutcome
  abortStart : Nat → Bool
  abortAtExhaust : Nat → Bool
  abortInCatch : Nat → Bool
  abortDuringWait : Nat → Bool
  abortFinal : Bool

/-- The host primitives the classification and matching code calls into. -/
structure Host (ρ : Type) where
  regex : RegexEngine ρ
  parseJson : String → Option JsonVal
  tokenCount : String → Option Nat

/-- Observable record of one run of the retry loop: how many underlying
calls were made, which inter-attempt waits completed (their durations in
order), whether the built-in error popup was shown, and the final result (a
returned response identified by its attempt index, or a thrown error). -/
structure Trace where
  calls : Nat
  delays : List Nat
  popupShown : Bool
  result : Except JsError Nat

/-- The code after the loop: throw the last recorded error (or the fallback
message), showing the built-in popup first unless the error is an abort or
the signal is aborted. -/
def postLoop (env : Env) (lastErr : Option JsError) : Trace :=
  let err := lastErr.getD fallbackExhaustedErr
  ⟨0, [], !isAbortError err && !env.abortFinal, Except.error err⟩

/-- The retry loop of enhancedFetch, with fuel the number of attempts still
allowed (initially maxRetries + 1, so more attempts remain after the
current one exactly when fuel is nonzero) and attempt the current index. -/
def runLoop {ρ : Type} (s : Settings) (h : Host ρ) (env : Env) :
    Nat → Nat → Option JsError → Trace
  | 0, _, lastErr => postLoop env lastErr
  | fuel + 1, attempt, lastErr =>
    if env.abortStart attempt then
      -- signal already aborted at loop entry: AbortError is thrown and the
      -- catch rethrows it without any popup; the fetch is never invoked
      ⟨0, [], false, Except.error abortErr⟩
    else
      match env.outcomes attempt with
      | FetchOutcome.ok none =>
        -- the cloned body could not be read: return the original response
        ⟨1, [], false, Except.ok attempt⟩
      | FetchOutcome.ok (some text) =>
        if classifyEmpty s h.parseJson h.tokenCount text then
          if fuel = 0 then
            -- final attempt: show the popup unless the signal is aborted,
            -- then throw; the throw lands in this attempt's own catch
            let e := emptyErr (s.maxRetries + 1)
            let popup1 := !env.abortAtExhaust attempt
            let t :=
              if isAbortError e || env.abortInCatch attempt then
                Trace.mk 0 [] false (Except.error e)
              else postLoop env (some e)
            ⟨t.calls + 1, t.delays, popup1 || t.popupShown, t.result⟩
          else if env.abortDuringWait attempt then
            -- the wait rejects with AbortError; the catch sees an abort and
            -- rethrows it immediately with no popup
            ⟨1, [], false, Except.error abortErr⟩
          else
            let rest := runLoop s h env fuel (attempt + 1) lastErr
            ⟨rest.calls + 1, calculateDelay s attempt :: rest.delays,
             rest.popupShown, rest.result⟩
        else
          -- acceptable content: return the response
          ⟨1, [], false, Except.ok attempt⟩
      | FetchOutcome.notOk status statusText bodyRead =>
        -- the generic HTTP error reaches the catch block
        let e := nonOkThrown status statusText bodyRead
        if isAbortError e || env.abortInCatch attempt then
          ⟨1, [], false, Except.error e⟩
        else if fuel = 0 then
          let t := postLoop env (some e)
          ⟨1, t.delays, t.popupShown, t.result⟩
        else if env.abortDuringWait attempt then
          -- the wait inside the catch rejects; nothing catches the rejection
          ⟨1, [], false, Except.error abortErr⟩
        else
          let rest := runLoop s h env fuel (attempt + 1) (some e)
          ⟨rest.calls + 1, calculateDelay s attempt :: rest.delays,
           rest.popupShown, rest.result⟩
      | FetchOutcome.throws e =>
        -- the transport itself threw; same catch block as above
        if isAbortError e || env.abortInCatch attempt then
          ⟨1, [], false, Except.error e⟩
        else if fuel = 0 then
          let t := postLoop env (some e)
          ⟨1, t.delays, t.popupShown, t.result⟩
        else if env.abortDuringWait attempt then
          ⟨1, [], false, Except.error abortErr⟩
        else
          let rest := runLoop s h env fuel (attempt + 1) (some e)
          ⟨rest.calls + 1, calculateDelay s attempt :: rest.delays,
           rest.popupShown, rest.result⟩

/-- Result of one call of enhancedFetch: delegated untouched to the
underlying transport, or processed by the retry loop. -/
inductive EFResult where
  | passthrough
  | run (t : Trace)

/-- enhancedFetch: pass the call through when the plugin is disabled or the
URL does not match the intercept rules, otherwise run the retry loop over
attempts 0 .. maxRetries. -/
def enhancedFetch {ρ : Type} (s : Settings) (h : Host ρ) (env : Env) (url : String) : EFResult :=
  if !s.enabled then EFResult.passthrough
  else if !shouldIntercept h.regex s url then EFResult.passthrough
  else EFResult.run (runLoop s h env (s.maxRetries + 1) 0 none)

/-! Concrete engines, hosts and configurations used as evaluation inputs. -/

/-- A degenerate regex engine: every compilation succeeds and every
compiled regex accepts every string. -/
def unitEngine : RegexEngine Unit := ⟨fun _ => some (), fun _ _ => true⟩

/-- A regex engine on which every compilation fails. -/
def noneEngine : RegexEngine Unit := ⟨fun _ => none, fun _ _ => false⟩

/-- A host whose JSON parser always fails and whose tokenizer reports zero. -/
def hostTriv : Host Unit := ⟨unitEngine, fun _ => none, fun _ => some 0⟩

/-- Default-like settings with no intercept rules. -/
def cfgNoRules : Settings := ⟨true, 3, 1000, 5, true, [], true, 400⟩

/-- Settings whose single rule is the two-slash regex form. -/
def cfgDoubleSlash : Settings := ⟨true, 3, 1000, 5, true, ["//"], true, 400⟩

/-- Settings with one substring rule and the default thresholds. -/
def cfgToken : Settings := ⟨true, 3, 1000, 5, true, ["/api/"], true, 400⟩

/-- A JSON parser that fails on every input, as JSON.parse does on a
non-JSON body. -/
def parseFails : String → Option JsonVal := fun _ => none

/-- An injected tokenizer that reports three tokens for every text. -/
def tokSmall : String → Option Nat := fun _ => some 3

/-- An environment with the given per-attempt outcomes and a signal that
never aborts. -/
def envQuiet (outs : Nat → FetchOutcome) : Env :=
  ⟨outs, fun _ => false, fun _ => false, fun _ => false, fun _ => false, false⟩

/-! Claim theorems. -/

/-- C4: a configuration whose interceptRules sequence is empty intercepts no
URL: shouldIntercept is false and enhancedFetch delegates the call directly
to the underlying transport with no retry wrapping. -/
theorem emptyRules_intercepts_nothing {ρ : Type} (s : Settings) (h : Host ρ) (env : Env)
    (url : String) (hrules : s.interceptRules = []) :
    shouldIntercept h.regex s url = false ∧ enhancedFetch s h env url = EFResult.passthrough := by
  have hsi : shouldIntercept h.regex s url = false := by
    simp [shouldIntercept, hrules]
  refine ⟨hsi, ?_⟩
  cases he : s.enabled <;> simp [enhancedFetch, hsi, he]

/-- Witness for C4 at a concrete no-rules configuration and URL. -/
theorem emptyRules_intercepts_nothing_witness :
    shouldIntercept hostTriv.regex cfgNoRules "https://host/api/chat" = false ∧
    enhancedFetch cfgNoRules hostTriv (envQuiet fun _ => FetchOutcome.ok none)
      "https://host/api/chat" = EFResult.passthrough :=
  emptyRules_intercepts_nothing cfgNoRules hostTriv
    (envQuiet fun _ => FetchOutcome.ok none) "https://host/api/chat" rfl

/-- C5 counterexample: the empty rule string is not in regex form and is
contained case-insensitively in every URL, yet matchesRule rejects it
because the empty string is falsy, so the claimed equivalence fails at
url abc, rule the empty string. -/
theorem emptyRule_matches_nothing :
    isRegexForm "" = false ∧ containsCI "abc" "" = true ∧
    matchesRule unitEngine "abc" "" = false := by decide

/-- C5 amended: every non-empty rule string that is not in regex form
matches a URL exactly when the rule text occurs in the URL under
case-insensitive comparison. -/
theorem substringRule_matches_iff_containsCI {ρ : Type} (eng : RegexEngine ρ)
    (url rule : String) (hne : rule ≠ "") (hform : isRegexForm rule = false) :
    matchesRule eng url rule = containsCI url rule := by
  simp [matchesRule, hne, hform]

/-- Witness for the amended C5 at a concrete mixed-case URL and rule. -/
theorem substringRule_matches_iff_containsCI_witness :
    matchesRule unitEngine "https://FF.example.xyz/v1" "ff"
      = containsCI "https://FF.example.xyz/v1" "ff" :=
  substringRule_matches_iff_containsCI unitEngine "https://FF.example.xyz/v1" "ff"
    (by decide) (by decide)

/-- C6: at a non-success response with status 500, statusText Internal
Server Error, and readable body boom, the detailed error carrying status,
statusText and body is indeed built and thrown inside the try of the
non-ok branch, but that throw is caught by the catch of the same try, so
the error that escapes the attempt is the generic status-line error and
carries none of the claimed payload fields. -/
theorem nonOk_error_loses_payload :
    nonOkTryBody 500 "Internal Server Error" (some "boom")
        = Except.error (detailedHttpError 500 "Internal Server Error" "boom") ∧
    (detailedHttpError 500 "Internal Server Error" "boom").body? = some "boom" ∧
    nonOkThrown 500 "Internal Server Error" (some "boom")
        = genericHttpError 500 "Internal Server Error" ∧
    (nonOkThrown 500 "Internal Server Error" (some "boom")).status? = none ∧
    (nonOkThrown 500 "Internal Server Error" (some "boom")).statusText? = none ∧
    (nonOkThrown 500 "Internal Server Error" (some "boom")).body? = none :=
  ⟨rfl, rfl, rfl, rfl, rfl, rfl⟩

/-- C7 counterexample: a body that passes the primary emptiness test and
fails to parse as JSON still undergoes the secondary token test on the raw
body text, and is classified empty when that count is below the threshold,
contradicting the claim that the parse failure disables the token test. -/
theorem jsonFailure_still_tokenChecks :
    extractResponseContent parseFails "this body is not valid JSON" = none ∧
    isEmptyContent cfgToken "this body is not valid JSON" = false ∧
    classifyEmpty cfgToken parseFails tokSmall "this body is not valid JSON" = true := by
  decide

/-- C7 amended: when enableMinTokenRetry is set and the body passes the
primary emptiness test but fails to parse as JSON, no error propagates and
the token test still runs with the raw body text as its candidate: the
body is classified empty exactly when the candidate's token count falls
below minTokenThreshold. -/
theorem jsonFailure_fallsBack_to_rawBody (s : Settings) (parse : String → Option JsonVal)
    (tok : String → Option Nat) (text : String)
    (hparse : parse text = none)
    (hnotEmpty : isEmptyContent s text = false)
    (htok : s.enableMinTokenRetry = true) :
    classifyEmpty s parse tok text
      = decide (getTokenCountFor tok text < s.minTokenThreshold) := by
  simp [classifyEmpty, extractResponseContent, hparse, hnotEmpty, htok]

/-- Witness for the amended C7 at a concrete non-JSON body. -/
theorem jsonFailure_fallsBack_to_rawBody_witness :
    classifyEmpty cfgToken parseFails tokSmall "sufficiently long reply"
      = decide (getTokenCountFor tokSmall "sufficiently long reply"
          < cfgToken.minTokenThreshold) :=
  jsonFailure_fallsBack_to_rawBody cfgToken parseFails tokSmall
    "sufficiently long reply" rfl (by decide) rfl

/-- C8: an attempt whose underlying call returns a successful status but
whose duplicated body cannot be read skips classification and returns the
original response as-is: one call, no retry, no error, no popup. -/
theorem unreadableBody_returned_asIs {ρ : Type} (s : Settings) (h : Host ρ) (env : Env)
    (fuel attempt : Nat) (lastErr : Option JsError)
    (hout : env.outcomes attempt = FetchOutcome.ok none)
    (hstart : env.abortStart attempt = false) :
    runLoop s h env (fuel + 1) attempt lastErr = ⟨1, [], false, Except.ok attempt⟩ := by
  simp [runLoop, hstart, hout]

/-- Witness for C8 at a concrete environment whose first attempt has an
unreadable body. -/
theorem unreadableBody_returned_asIs_witness :
    runLoop cfgToken hostTriv (envQuiet fun _ => FetchOutcome.ok none) 4 0 none
      = ⟨1, [], false, Except.ok 0⟩ :=
  unreadableBody_returned_asIs cfgToken hostTriv
    (envQuiet fun _ => FetchOutcome.ok none) 3 0 none rfl rfl

/-- C9: a regex-form rule is decided by compiling the text between the
slashes and testing the URL against the compiled regex; a pattern the
engine fails to compile makes the rule non-matching (and matchesRule is a
total function, so the failure never escapes to the caller). -/
theorem regexRule_tested_or_false {ρ : Type} (eng : RegexEngine ρ) (url rule : String)
    (hform : isRegexForm rule = true) :
    matchesRule eng url rule =
      ((eng.compile (innerPattern rule)).map (fun re => eng.test re url)).getD false := by
  have hne : rule ≠ "" := by
    intro hr
    rw [hr] at hform
    simp [isRegexForm] at hform
  simp only [matchesRule, hne, hform]
  cases eng.compile (innerPattern rule) <;> simp [hne, hform]

/-- Witness for C9 at the invalid pattern consisting of an unclosed
bracket, on an engine that rejects it. -/
theorem regexRule_tested_or_false_witness :
    isRegexForm "/[/" = true ∧
    matchesRule noneEngine "https://host/x" "/[/" =
      ((noneEngine.compile (innerPattern "/[/")).map
        (fun re => noneEngine.test re "https://host/x")).getD false :=
  ⟨by decide, regexRule_tested_or_false noneEngine "https://host/x" "/[/" (by decide)⟩

/-- C10: when the engine compiles the empty pattern to a regex accepting
every string, as the JS RegExp engine does, the two-slash rule matches
every URL, and any configuration listing that rule intercepts every
request. -/
theorem doubleSlashRule_matches_everything {ρ : Type} (eng : RegexEngine ρ) (re : ρ)
    (hc : eng.compile "" = some re) (ht : ∀ str, eng.test re str = true)
    (s : Settings) (url : String) (hmem : "//" ∈ s.interceptRules) :
    matchesRule eng url "//" = true ∧ shouldIntercept eng s url = true := by
  have hne : ("//" : String) ≠ "" := by decide
  have hform : isRegexForm "//" = true := by decide
  have hip : innerPattern "//" = "" := by decide
  have hm : matchesRule eng url "//" = true := by
    simp [matchesRule, hne, hform, hip, hc, ht]
  refine ⟨hm, ?_⟩
  have hie : s.interceptRules.isEmpty = false := by
    cases hl : s.interceptRules with
    | nil => rw [hl] at hmem; exact absurd hmem (List.not_mem_nil _)
    | cons a as => rfl
  simp only [shouldIntercept, hie, Bool.false_eq_true, if_false]
  exact List.any_eq_true.mpr ⟨"//", hmem, hm⟩

/-- Witness for C10 on the degenerate always-accepting engine and a
configuration whose rule list is exactly the two-slash rule. -/
theorem doubleSlashRule_matches_everything_witness :
    matchesRule unitEngine "https://example.com/any/path" "//" = true ∧
    shouldIntercept unitEngine cfgDoubleSlash "https://example.com/any/path" = true :=
  doubleSlashRule_matches_everything unitEngine () rfl (fun _ => rfl)
    cfgDoubleSlash "https://example.com/any/path" (by decide)

/-- Every completed inter-attempt wait recorded by the loop has the fixed
duration baseDelay, whatever the environment does. -/
theorem runLoop_delays_fixed {ρ : Type} (s : Settings) (h : Host ρ) (env : Env) :
    ∀ fuel attempt lastErr, ∀ d ∈ (runLoop s h env fuel attempt lastErr).delays,
      d = s.baseDelay := by
  intro fuel
  induction fuel with
  | zero =>
    intro attempt lastErr d hd
    simp [runLoop, postLoop] at hd
  | succ f ih =>
    intro attempt lastErr d hd
    simp only [runLoop] at hd
    split at hd
    · simp at hd
    · split at hd
      · simp at hd
      · split at hd
        · split at hd
          · split at hd <;> simp [postLoop] at hd
          · split at hd
            · simp at hd
            · simp only [List.mem_cons] at hd
              rcases hd with hd | hd
              · exact hd
              · exact ih _ _ d hd
        · simp at hd
      · split at hd
        · simp at hd
        · split at hd
          · simp [postLoop] at hd
          · split at hd
            · simp at hd
            · simp only [List.mem_cons] at hd
              rcases hd with hd | hd
              · exact hd
              · exact ih _ _ d hd
      · split at hd
        · simp at hd
        · split at hd
          · simp [postLoop] at hd
          · split at hd
            · simp at hd
            · simp only [List.mem_cons] at hd
              rcases hd with hd | hd
              · exact hd
              · exact ih _ _ d hd

/-- C3: in every intercepted run, each inter-attempt wait that completed
lasted exactly baseDelay, and calculateDelay ignores the attempt index
(the fixed-delay policy, not exponential backoff). -/
theorem delays_are_fixed_baseDelay {ρ : Type} (s : Settings) (h : Host ρ) (env : Env)
    (url : String) (t : Trace) (hrun : enhancedFetch s h env url = EFResult.run t) :
    (∀ d ∈ t.delays, d = s.baseDelay) ∧
      ∀ attempt, calculateDelay s attempt = s.baseDelay := by
  refine ⟨?_, fun _ => rfl⟩
  have hts : EFResult.run (runLoop s h env (s.maxRetries + 1) 0 none) = EFResult.run t := by
    by_cases he : s.enabled
    · by_cases hi : shouldIntercept h.regex s url
      · rw [← hrun]; simp [enhancedFetch, he, hi]
      · simp [enhancedFetch, he, hi] at hrun
    · simp [enhancedFetch, he] at hrun
  have ht : runLoop s h env (s.maxRetries + 1) 0 none = t := by
    injection hts
  intro d hd
  exact runLoop_delays_fixed s h env (s.maxRetries + 1) 0 none d (ht ▸ hd)

/-- Settings used by the retry-exhaustion and delay witnesses. -/
def cfgC1 : Settings := ⟨true, 2, 1000, 5, true, ["api"], true, 400⟩

/-- Environment in which every attempt yields a successful response with an
empty body and the signal never aborts. -/
def envAllEmpty : Env := envQuiet (fun _ => FetchOutcome.ok (some ""))

/-- Witness for C3 on a run with maxRetries two and every body empty. -/
theorem delays_are_fixed_baseDelay_witness :
    (∀ d ∈ (runLoop cfgC1 hostTriv envAllEmpty (cfgC1.maxRetries + 1) 0 none).delays,
      d = cfgC1.baseDelay) ∧
    ∀ attempt, calculateDelay cfgC1 attempt = cfgC1.baseDelay :=
  delays_are_fixed_baseDelay cfgC1 hostTriv envAllEmpty "https://host/api/x"
    (runLoop cfgC1 hostTriv envAllEmpty (cfgC1.maxRetries + 1) 0 none) rfl

/-- One unfolding of the loop in the empty-retry path: the body is
classified empty, attempts remain, the wait completes, and the loop
continues with the next attempt and an unchanged last error. -/
theorem runLoop_step_emptyRetry {ρ : Type} (s : Settings) (h : Host ρ) (env : Env)
    (fuel attempt : Nat) (lastErr : Option JsError) (text : String)
    (hstart : env.abortStart attempt = false)
    (hout : env.outcomes attempt = FetchOutcome.ok (some text))
    (hemp : classifyEmpty s h.parseJson h.tokenCount text = true)
    (hfuel : fuel ≠ 0)
    (hwait : env.abortDuringWait attempt = false) :
    runLoop s h env (fuel + 1) attempt lastErr =
      ⟨(runLoop s h env fuel (attempt + 1) lastErr).calls + 1,
       calculateDelay s attempt :: (runLoop s h env fuel (attempt + 1) lastErr).delays,
       (runLoop s h env fuel (attempt + 1) lastErr).popupShown,
       (runLoop s h env fuel (attempt + 1) lastErr).result⟩ := by
  simp [runLoop, hstart, hout, hemp, hfuel, hwait]

/-- One unfolding of the loop in the empty path when the signal fires
during the wait: the catch rethrows the AbortError with no popup and no
further attempt. -/
theorem runLoop_step_emptyAbortWait {ρ : Type} (s : Settings) (h : Host ρ) (env : Env)
    (fuel attempt : Nat) (lastErr : Option JsError) (text : String)
    (hstart : env.abortStart attempt = false)
    (hout : env.outcomes attempt = FetchOutcome.ok (some text))
    (hemp : classifyEmpty s h.parseJson h.tokenCount text = true)
    (hfuel : fuel ≠ 0)
    (hwait : env.abortDuringWait attempt = true) :
    runLoop s h env (fuel + 1) attempt lastErr
      = ⟨1, [], false, Except.error abortErr⟩ := by
  simp [runLoop, hstart, hout, hemp, hfuel, hwait]

/-- One unfolding of the loop when the transport throws a non-abort error,
the signal is quiet, attempts remain and the wait completes: the loop
continues with the error recorded as last error. -/
theorem runLoop_step_throwRetry {ρ : Type} (s : Settings) (h : Host ρ) (env : Env)
    (fuel attempt : Nat) (lastErr : Option JsError) (e : JsError)
    (hstart : env.abortStart attempt = false)
    (hout : env.outcomes attempt = FetchOutcome.throws e)
    (hab : isAbortError e = false)
    (hic : env.abortInCatch attempt = false)
    (hfuel : fuel ≠ 0)
    (hwait : env.abortDuringWait attempt = false) :
    runLoop s h env (fuel + 1) attempt lastErr =
      ⟨(runLoop s h env fuel (attempt + 1) (some e)).calls + 1,
       calculateDelay s attempt :: (runLoop s h env fuel (attempt + 1) (some e)).delays,
       (runLoop s h env fuel (attempt + 1) (some e)).popupShown,
       (runLoop s h env fuel (attempt + 1) (some e)).result⟩ := by
  simp [runLoop, hstart, hout, hab, hic, hfuel, hwait]

/-- One unfolding of the loop when the transport throws a non-abort error
and the signal then fires during the wait inside the catch: the rejection
propagates with no popup and no further attempt. -/
theorem runLoop_step_throwAbortWait {ρ : Type} (s : Settings) (h : Host ρ) (env : Env)
    (fuel attempt : Nat) (lastErr : Option JsError) (e : JsError)
    (hstart : env.abortStart attempt = false)
    (hout : env.outcomes attempt = FetchOutcome.throws e)
    (hab : isAbortError e = false)
    (hic : env.abortInCatch attempt = false)
    (hfuel : fuel ≠ 0)
    (hwait : env.abortDuringWait attempt = true) :
    runLoop s h env (fuel + 1) attempt lastErr
      = ⟨1, [], false, Except.error abortErr⟩ := by
  simp [runLoop, hstart, hout, hab, hic, hfuel, hwait]

/-- One unfolding of the loop when the response has a non-success status
whose escaping generic error is not an abort, the signal is quiet,
attempts remain and the wait completes. -/
theorem runLoop_step_notOkRetry {ρ : Type} (s : Settings) (h : Host ρ) (env : Env)
    (fuel attempt : Nat) (lastErr : Option JsError)
    (status : Nat) (statusText : String) (bodyRead : Option String)
    (hstart : env.abortStart attempt = false)
    (hout : env.outcomes attempt = FetchOutcome.notOk status statusText bodyRead)
    (hab : isAbortError (nonOkThrown status statusText bodyRead) = false)
    (hic : env.abortInCatch attempt = false)
    (hfuel : fuel ≠ 0)
    (hwait : env.abortDuringWait attempt = false) :
    runLoop s h env (fuel + 1) attempt lastErr =
      ⟨(runLoop s h env fuel (attempt + 1)
          (some (nonOkThrown status statusText bodyRead))).calls + 1,
       calculateDelay s attempt :: (runLoop s h env fuel (attempt + 1)
          (some (nonOkThrown status statusText bodyRead))).delays,
       (runLoop s h env fuel (attempt + 1)
          (some (nonOkThrown status statusText bodyRead))).popupShown,
       (runLoop s h env fuel (attempt + 1)
          (some (nonOkThrown status statusText bodyRead))).result⟩ := by
  simp [runLoop, hstart, hout, hab, hic, hfuel, hwait]

/-- One unfolding of the loop when the response has a non-success status
and the signal then fires during the wait inside the catch. -/
theorem runLoop_step_notOkAbortWait {ρ : Type} (s : Settings) (h : Host ρ) (env : Env)
    (fuel attempt : Nat) (lastErr : Option JsError)
    (status : Nat) (statusText : String) (bodyRead : Option String)
    (hstart : env.abortStart attempt = false)
    (hout : env.outcomes attempt = FetchOutcome.notOk status statusText bodyRead)
    (hab : isAbortError (nonOkThrown status statusText bodyRead) = false)
    (hic : env.abortInCatch attempt = false)
    (hfuel : fuel ≠ 0)
    (hwait : env.abortDuringWait attempt = true) :
    runLoop s h env (fuel + 1) attempt lastErr
      = ⟨1, [], false, Except.error abortErr⟩ := by
  simp [runLoop, hstart, hout, hab, hic, hfuel, hwait]

/-- When every attempt in range yields a successful response whose body is
classified empty and the signal never aborts, the loop makes exactly one
underlying call per remaining attempt and ends by throwing the
exhausted-retries empty-content error. -/
theorem runLoop_allEmpty {ρ : Type} (s : Settings) (h : Host ρ) (env : Env)
    (bodies : Nat → String)
    (hout : ∀ i < s.maxRetries + 1, env.outcomes i = FetchOutcome.ok (some (bodies i)))
    (hemp : ∀ i < s.maxRetries + 1,
      classifyEmpty s h.parseJson h.tokenCount (bodies i) = true)
    (hstart : ∀ i < s.maxRetries + 1, env.abortStart i = false)
    (hwait : ∀ i < s.maxRetries + 1, env.abortDuringWait i = false) :
    ∀ f attempt lastErr, attempt + f = s.maxRetries →
      (runLoop s h env (f + 1) attempt lastErr).calls = f + 1 ∧
      (runLoop s h env (f + 1) attempt lastErr).result
        = Except.error (emptyErr (s.maxRetries + 1)) := by
  intro f
  induction f with
  | zero =>
    intro attempt lastErr hat
    have ha : attempt < s.maxRetries + 1 := by omega
    simp only [runLoop, hstart attempt ha, hout attempt ha, hemp attempt ha,
      Bool.false_eq_true, if_false, if_true]
    constructor
    · split <;> rfl
    · split
      · rfl
      · simp [postLoop]
  | succ f ih =>
    intro attempt lastErr hat
    have ha : attempt < s.maxRetries + 1 := by omega
    have hstep := runLoop_step_emptyRetry s h env (f + 1) attempt lastErr (bodies attempt)
      (hstart attempt ha) (hout attempt ha) (hemp attempt ha)
      (Nat.succ_ne_zero f) (hwait attempt ha)
    have hrec := ih (attempt + 1) lastErr (by omega)
    rw [hstep]
    exact ⟨by rw [hrec.1], hrec.2⟩

/-- C1: with the plugin enabled, the URL intercepted, every underlying call
returning a successful response whose body is classified empty, and the
abort signal quiet, enhancedFetch performs exactly maxRetries + 1
underlying calls and then fails with the exhausted-retries empty-content
error. -/
theorem allEmpty_makes_exact_calls {ρ : Type} (s : Settings) (h : Host ρ) (env : Env)
    (url : String) (bodies : Nat → String)
    (hen : s.enabled = true)
    (hint : shouldIntercept h.regex s url = true)
    (hout : ∀ i < s.maxRetries + 1, env.outcomes i = FetchOutcome.ok (some (bodies i)))
    (hemp : ∀ i < s.maxRetries + 1,
      classifyEmpty s h.parseJson h.tokenCount (bodies i) = true)
    (hstart : ∀ i < s.maxRetries + 1, env.abortStart i = false)
    (hwait : ∀ i < s.maxRetries + 1, env.abortDuringWait i = false) :
    ∃ t : Trace, enhancedFetch s h env url = EFResult.run t ∧
      t.calls = s.maxRetries + 1 ∧
      t.result = Except.error (emptyErr (s.maxRetries + 1)) := by
  refine ⟨runLoop s h env (s.maxRetries + 1) 0 none, ?_, ?_, ?_⟩
  · simp [enhancedFetch, hen, hint]
  · exact (runLoop_allEmpty s h env bodies hout hemp hstart hwait
      s.maxRetries 0 none (by omega)).1
  · exact (runLoop_allEmpty s h env bodies hout hemp hstart hwait
      s.maxRetries 0 none (by omega)).2

/-- Witness for C1 at maxRetries two with every body empty: three calls,
then the empty-content error. -/
theorem allEmpty_makes_exact_calls_witness :
    ∃ t : Trace,
      enhancedFetch cfgC1 hostTriv envAllEmpty "https://host/api/x" = EFResult.run t ∧
      t.calls = cfgC1.maxRetries + 1 ∧
      t.result = Except.error (emptyErr (cfgC1.maxRetries + 1)) :=
  allEmpty_makes_exact_calls cfgC1 hostTriv envAllEmpty "https://host/api/x"
    (fun _ => "") rfl (by decide) (by decide) (by decide) (by decide) (by decide)

/-- Whether the processing of attempt i ends in the retry path that waits
before the next attempt: a successful response classified empty, or an
error reaching the catch block that is not an abort while the signal is
quiet there. -/
def retriesAfter {ρ : Type} (s : Settings) (h : Host ρ) (env : Env) (i : Nat) : Bool :=
  match env.outcomes i with
  | FetchOutcome.ok none => false
  | FetchOutcome.ok (some text) => classifyEmpty s h.parseJson h.tokenCount text
  | FetchOutcome.notOk status statusText bodyRead =>
      !(isAbortError (nonOkThrown status statusText bodyRead) || env.abortInCatch i)
  | FetchOutcome.throws e => !(isAbortError e || env.abortInCatch i)

/-- When attempts 0 through k all end in the retry path, the signal stays
quiet until the wait after attempt k, and that wait is aborted, the loop
makes no call past attempt k, shows no popup, and fails with AbortError. -/
theorem runLoop_abortDuringWait {ρ : Type} (s : Settings) (h : Host ρ) (env : Env)
    (k : Nat) (hk : k < s.maxRetries)
    (hretry : ∀ i ≤ k, retriesAfter s h env i = true)
    (hstart : ∀ i ≤ k, env.abortStart i = false)
    (hwlt : ∀ i < k, env.abortDuringWait i = false)
    (hwk : env.abortDuringWait k = true) :
    ∀ fuel attempt lastErr, attempt + fuel = s.maxRetries + 1 → attempt ≤ k →
      (runLoop s h env fuel attempt lastErr).calls = k + 1 - attempt ∧
      (runLoop s h env fuel attempt lastErr).popupShown = false ∧
      (runLoop s h env fuel attempt lastErr).result = Except.error abortErr := by
  intro fuel
  induction fuel with
  | zero =>
    intro attempt lastErr hat hak
    omega
  | succ f ih =>
    intro attempt lastErr hat hak
    have hf : f ≠ 0 := by omega
    have hr := hretry attempt hak
    have hs0 := hstart attempt hak
    rcases Nat.lt_or_ge attempt k with hlt | hge
    · -- attempt strictly before k: this attempt retries and the wait completes
      have hw : env.abortDuringWait attempt = false := hwlt attempt hlt
      cases ho : env.outcomes attempt with
      | ok body =>
        cases body with
        | none =>
          rw [retriesAfter, ho] at hr
          exact absurd hr (by simp)
        | some text =>
          rw [retriesAfter, ho] at hr
          rw [runLoop_step_emptyRetry s h env f attempt lastErr text hs0 ho hr hf hw]
          have hrec := ih (attempt + 1) lastErr (by omega) (by omega)
          refine ⟨?_, hrec.2.1, hrec.2.2⟩
          show (runLoop s h env f (attempt + 1) lastErr).calls + 1 = k + 1 - attempt
          rw [hrec.1]
          omega
      | notOk status statusText bodyRead =>
        rw [retriesAfter, ho] at hr
        rw [Bool.not_eq_true', Bool.or_eq_false_iff] at hr
        rw [runLoop_step_notOkRetry s h env f attempt lastErr status statusText bodyRead
          hs0 ho hr.1 hr.2 hf hw]
        have hrec := ih (attempt + 1) (some (nonOkThrown status statusText bodyRead))
          (by omega) (by omega)
        refine ⟨?_, hrec.2.1, hrec.2.2⟩
        show (runLoop s h env f (attempt + 1)
          (some (nonOkThrown status statusText bodyRead))).calls + 1 = k + 1 - attempt
        rw [hrec.1]
        omega
      | throws e =>
        rw [retriesAfter, ho] at hr
        rw [Bool.not_eq_true', Bool.or_eq_false_iff] at hr
        rw [runLoop_step_throwRetry s h env f attempt lastErr e hs0 ho hr.1 hr.2 hf hw]
        have hrec := ih (attempt + 1) (some e) (by omega) (by omega)
        refine ⟨?_, hrec.2.1, hrec.2.2⟩
        show (runLoop s h env f (attempt + 1) (some e)).calls + 1 = k + 1 - attempt
        rw [hrec.1]
        omega
    · -- attempt equals k: the wait after this attempt is aborted
      have hek : attempt = k := by omega
      cases ho : env.outcomes attempt with
      | ok body =>
        cases body with
        | none =>
          rw [retriesAfter, ho] at hr
          exact absurd hr (by simp)
        | some text =>
          rw [retriesAfter, ho] at hr
          rw [runLoop_step_emptyAbortWait s h env f attempt lastErr text hs0 ho hr hf
            (hek ▸ hwk)]
          exact ⟨show (1 : Nat) = k + 1 - attempt by omega, rfl, rfl⟩
      | notOk status statusText bodyRead =>
        rw [retriesAfter, ho] at hr
        rw [Bool.not_eq_true', Bool.or_eq_false_iff] at hr
        rw [runLoop_step_notOkAbortWait s h env f attempt lastErr status statusText bodyRead
          hs0 ho hr.1 hr.2 hf (hek ▸ hwk)]
        exact ⟨show (1 : Nat) = k + 1 - attempt by omega, rfl, rfl⟩
      | throws e =>
        rw [retriesAfter, ho] at hr
        rw [Bool.not_eq_true', Bool.or_eq_false_iff] at hr
        rw [runLoop_step_throwAbortWait s h env f attempt lastErr e hs0 ho hr.1 hr.2 hf
          (hek ▸ hwk)]
        exact ⟨show (1 : Nat) = k + 1 - attempt by omega, rfl, rfl⟩

/-- C2: when the abort signal fires during the wait between attempt k and
attempt k + 1 of an intercepted call, no attempt k + 1 underlying call
occurs (exactly k + 1 calls in total), the whole operation fails with the
AbortError, and no error popup is shown. -/
theorem abortDuringWait_stops_retrying {ρ : Type} (s : Settings) (h : Host ρ) (env : Env)
    (url : String) (k : Nat)
    (hen : s.enabled = true)
    (hint : shouldIntercept h.regex s url = true)
    (hk : k < s.maxRetries)
    (hretry : ∀ i ≤ k, retriesAfter s h env i = true)
    (hstart : ∀ i ≤ k, env.abortStart i = false)
    (hwlt : ∀ i < k, env.abortDuringWait i = false)
    (hwk : env.abortDuringWait k = true) :
    ∃ t : Trace, enhancedFetch s h env url = EFResult.run t ∧
      t.calls = k + 1 ∧ t.popupShown = false ∧
      t.result = Except.error abortErr := by
  refine ⟨runLoop s h env (s.maxRetries + 1) 0 none, ?_, ?_⟩
  · simp [enhancedFetch, hen, hint]
  · have h3 := runLoop_abortDuringWait s h env k hk hretry hstart hwlt hwk
      (s.maxRetries + 1) 0 none (by omega) (by omega)
    exact ⟨h3.1, h3.2.1, h3.2.2⟩

/-- Environment for the C2 witness: every attempt empty, and the signal
fires during the wait after attempt zero. -/
def envAbortAfterFirst : Env :=
  ⟨fun _ => FetchOutcome.ok (some ""), fun _ => false, fun _ => false,
   fun _ => false, fun i => i == 0, false⟩

/-- Witness for C2 at maxRetries two with the signal firing during the
first inter-attempt wait: one call, AbortError, no popup. -/
theorem abortDuringWait_stops_retrying_witness :
    ∃ t : Trace,
      enhancedFetch cfgC1 hostTriv envAbortAfterFirst "https://host/api/x"
        = EFResult.run t ∧
      t.calls = 0 + 1 ∧ t.popupShown = false ∧
      t.result = Except.error abortErr :=
  abortDuringWait_stops_retrying cfgC1 hostTriv envAbortAfterFirst "https://host/api/x" 0
    rfl (by decide) (by decide) (by decide) (by decide) (by decide) rfl

end RetryPlugin
